import Mathlib

/-!
Verification of the web_printer repository's client scripts and of the job
orchestration engine described by its design document.

The browser-side code (print.js, scan.js, main.js) is embedded directly:
each Lean definition mirrors one JavaScript function, with DOM effects made
explicit as returned view values. The server-side engine (job store, state
machine, per-device scheduler) ships separately from the scripts, so those
components are modelled from the design document, as marked on each such
definition.
-/

/-! ## JavaScript string primitives -/

/-- JavaScript `String.prototype.toLowerCase` restricted to the ASCII
strings the pages use for job statuses. -/
def jsToLowerCase (s : String) : String :=
  String.mk (s.toList.map Char.toLower)

/-- Clamp a JavaScript number index into the valid range `[0, len]`, the
way `String.prototype.substring` treats its arguments: negative values
become `0`, values past the end become `len`. -/
def jsClamp (x : Int) (len : Nat) : Nat :=
  if x < 0 then 0 else if x > (len : Int) then len else x.toNat

/-- JavaScript `String.prototype.substring`: both indices are clamped into
range and swapped if given in the wrong order. -/
def jsSubstring (s : String) (start finish : Int) : String :=
  String.mk (((s.toList).drop (min (jsClamp start s.length) (jsClamp finish s.length))).take
    (max (jsClamp start s.length) (jsClamp finish s.length)
      - min (jsClamp start s.length) (jsClamp finish s.length)))

/-- Index of the last occurrence of `c` at or after position `i` in the
character list, numbering from `i`. -/
def lastIndexFrom (c : Char) : List Char → Nat → Option Nat
  | [], _ => none
  | x :: xs, i =>
    match lastIndexFrom c xs (i + 1) with
    | some j => some j
    | none => if x = c then some i else none

/-- JavaScript `String.prototype.lastIndexOf` for a single character:
the index of its last occurrence, or `-1` when absent. -/
def jsLastIndexOf (s : String) (c : Char) : Int :=
  match lastIndexFrom c s.toList 0 with
  | some n => (n : Int)
  | none => -1

/-- JavaScript `a || b` for an optional string `a`: `b` when `a` is absent
or empty (both falsy), otherwise the string itself. -/
def jsOrElse (m : Option String) (fallback : String) : String :=
  match m with
  | some s => if s = "" then fallback else s
  | none => fallback

/-! ## main.js — `Utils.truncateFilename`

Embedded from `Utils.truncateFilename`: keep a short filename unchanged;
otherwise cut the base name, insert an ellipsis, and keep the extension
taken from the last dot (no dot: cut the whole name and append the
ellipsis). -/

/-- The `Utils.truncateFilename` function of main.js. -/
def Utils.truncateFilename (filename : String) (maxLength : Int) : String :=
  if filename = "" ∨ ((filename.length : Int) ≤ maxLength) then filename
  else
    let lastDotIndex := jsLastIndexOf filename '.'
    if lastDotIndex = -1 then
      jsSubstring filename 0 (maxLength - 3) ++ "..."
    else
      let ext := jsSubstring filename lastDotIndex (filename.length : Int)
      let nm := jsSubstring filename 0 lastDotIndex
      let availableLength := maxLength - (ext.length : Int) - 3
      jsSubstring nm 0 availableLength ++ "..." ++ ext

/-! ## main.js — `API.request` -/

/-- The parsed JSON body of an API reply, in the `ApiResponse` wrapper
shape the client checks for: an optional `success` flag, a `data` payload
and an optional `message`. A body with no `success` field is a bare
payload. -/
structure ApiBody where
  success : Option Bool
  data : String
  message : Option String
deriving DecidableEq, Repr

/-- An HTTP response as `API.request` observes it: the `ok` flag, the
numeric status with its text, and the JSON body (`none` when the body does
not parse as JSON). -/
structure HttpResponse where
  ok : Bool
  status : Nat
  statusText : String
  body : Option ApiBody
deriving DecidableEq, Repr

/-- What a successful `API.request` resolves to: the `data` field of a
wrapper reply, or the whole body when it is not a wrapper. -/
inductive ApiResult
  | payload (d : String)
  | whole (b : ApiBody)
deriving DecidableEq, Repr

/-- The `API.request` helper of main.js. A non-`ok` status throws with the
server message when present (falling back to `HTTP <status>: <text>`); an
`ok` wrapper body with `success` false throws with its message; an `ok`
wrapper with `success` true resolves to `data`; an `ok` non-wrapper body
resolves to the body itself. -/
def API.request (r : HttpResponse) : Except String ApiResult :=
  if !r.ok then
    Except.error (jsOrElse
      (match r.body with
       | some b => b.message
       | none => none)
      ("HTTP " ++ toString r.status ++ ": " ++ r.statusText))
  else
    match r.body with
    | none => Except.error "JSON parse error"
    | some result =>
      match result.success with
      | some s =>
        if !s then Except.error (jsOrElse result.message "API request failed")
        else Except.ok (ApiResult.payload result.data)
      | none => Except.ok (ApiResult.whole result)

/-! ## print.js / scan.js — job table action buttons -/

/-- The kinds of action button the job tables render. -/
inductive JobAction
  | view
  | cancel
  | download
  | preview
  | del
deriving DecidableEq, Repr

/-- The `getJobActions` function of print.js: view always; cancel for the
active statuses; delete for the terminal statuses — each decided on the
lower-cased status string. -/
def getJobActions (status : String) : List JobAction :=
  let st := jsToLowerCase status
  [JobAction.view]
    ++ (if st ∈ ["queued", "processing", "printing"] then [JobAction.cancel] else [])
    ++ (if st ∈ ["completed", "failed", "cancelled"] then [JobAction.del] else [])

/-- A scan job row as `getScanJobActions` reads it. -/
structure ScanJobRow where
  status : String
  file_available : Bool
  format : String
deriving DecidableEq, Repr

/-- The `getScanJobActions` function of scan.js: view always; download
(and preview for image formats) for a completed job whose file is still
available; delete for the terminal statuses. -/
def getScanJobActions (job : ScanJobRow) : List JobAction :=
  let st := jsToLowerCase job.status
  [JobAction.view]
    ++ (if st = "completed" ∧ job.file_available then
          [JobAction.download]
            ++ (if job.format ∈ ["jpeg", "png", "tiff"] then [JobAction.preview] else [])
        else [])
    ++ (if st ∈ ["completed", "failed", "cancelled"] then [JobAction.del] else [])

/-! ## print.js — file input validation -/

/-- The 50 MB limit of the print form's file input. -/
def printMaxFileSize : Nat := 50 * 1024 * 1024

/-- The MIME types the print form accepts. -/
def printAllowedTypes : List String :=
  ["application/pdf",
   "application/msword",
   "application/vnd.openxmlformats-officedocument.wordprocessingml.document",
   "text/plain",
   "image/jpeg",
   "image/png"]

/-- A file selected in the print form: its name (the input's value), its
size in bytes and its MIME type. -/
structure SelectedFile where
  name : String
  size : Nat
  type : String
deriving DecidableEq, Repr

/-- The state of the file input after the change handler ran, paired with
the error toast it showed, if any. An empty `value` means the input was
cleared. -/
structure FileInputOutcome where
  value : String
  errorShown : Option String
deriving DecidableEq, Repr

/-- The file-input change handler installed by `setupPrintForm` in
print.js: clear the input for an oversized file, then for a disallowed
MIME type; otherwise leave the selection in place. -/
def handlePrintFileChange (f : SelectedFile) : FileInputOutcome :=
  if f.size > printMaxFileSize then
    { value := "", errorShown := some "File size must be less than 50MB" }
  else if f.type ∈ printAllowedTypes then
    { value := f.name, errorShown := none }
  else
    { value := "",
      errorShown := some "Unsupported file type. Please use PDF, DOC, DOCX, TXT, JPG, or PNG." }

/-! ## main.js — queue rendering and the SSE dispatcher -/

/-- A job as the dashboard queue list reads it: the discriminant between
the `Print` and `Scan` payloads, its status string and display filename. -/
structure QueueJob where
  isPrint : Bool
  status : String
  filename : String
deriving DecidableEq, Repr

/-- One rendered entry of the dashboard queue list: whether it carries the
active (processing) styling, and the position label shown on its left —
the play marker for an active job, `#index` for a waiting one. -/
structure QueueItemView where
  isProcessing : Bool
  positionLabel : String
deriving DecidableEq, Repr

/-- How `displayJobQueue` in main.js renders one queue entry at a given
array index. -/
def renderQueueItem (job : QueueJob) (index : Nat) : QueueItemView :=
  let isProcessing := jsToLowerCase job.status ∈ ["processing", "printing", "scanning"]
  { isProcessing := isProcessing
    positionLabel := if isProcessing then "▶" else "#" ++ toString index }

/-- The `displayJobQueue` function of main.js: render every job of the
queue snapshot at its array index. -/
def displayJobQueue (jobs : List QueueJob) : List QueueItemView :=
  jobs.enum.map (fun p => renderQueueItem p.2 p.1)

/-- The status snapshot payload of a `status_update` event. -/
structure StatusSnapshot where
  active_prints : Nat
  active_scans : Nat
  disk_space_mb : Option Nat
deriving DecidableEq, Repr

/-- A message of the subscription stream, tagged by its `type` field as
the client switches on it. -/
inductive SSEMessage
  | queueUpdate (queue : List QueueJob)
  | statusUpdate (status : StatusSnapshot)
  | recentActivity (jobs : List QueueJob)
  | unknown (tag : String)
deriving DecidableEq, Repr

/-- The observable effect of one `handleSSEMessage` call: the recent
activity refetch it always issues, the queue list it rendered (dashboard
page only), the status snapshot it applied, and the recent-activity
payload it applied (never — that case only logs). -/
structure SSEEffects where
  refetchRecentActivity : Bool
  queueRendered : Option (List QueueItemView)
  statusApplied : Option StatusSnapshot
  recentApplied : Option (List QueueJob)
deriving DecidableEq, Repr

/-- The `handleSSEMessage` function of main.js: refetch recent activity,
then switch on the message's `type` tag — `queue_update` renders the queue
when on the dashboard path, `status_update` applies the status snapshot,
`recent_activity` is logged as not implemented, anything else is logged as
unknown. -/
def handleSSEMessage (path : String) (msg : SSEMessage) : SSEEffects :=
  let base : SSEEffects :=
    { refetchRecentActivity := true
      queueRendered := none
      statusApplied := none
      recentApplied := none }
  match msg with
  | SSEMessage.queueUpdate q =>
    if path = "/" then { base with queueRendered := some (displayJobQueue q) } else base
  | SSEMessage.statusUpdate st => { base with statusApplied := some st }
  | SSEMessage.recentActivity _ => base
  | SSEMessage.unknown _ => base

/-! ## The job orchestration engine, modelled from the design document

The engine itself (Rust) ships separately from the client scripts, so the
definitions of this section are modelled from the design document: the job
envelope of section 3, the state machine of section 4.3, the per-device
FIFO scheduler of section 4.4 and the scan-option validation of sections
4.2/7. -/

/-- Modelled from the spec: the job status machine of section 4.3 —
`Queued` initial, `Processing` active, and the three terminal states. -/
inductive Status
  | queued
  | processing
  | completed
  | failed
  | cancelled
deriving DecidableEq, Repr

/-- A status is terminal when no further transition is permitted. -/
def Status.isTerminal : Status → Bool
  | Status.completed => true
  | Status.failed => true
  | Status.cancelled => true
  | _ => false

/-- A status is active when it is neither terminal nor `Queued` — the
states the one-job-per-device invariant counts. -/
def Status.isActive (s : Status) : Bool :=
  !s.isTerminal && !(s == Status.queued)

/-- Modelled from the spec: the common job envelope of section 3, reduced
to the fields the checked claims mention — identifier, target device,
status and creation timestamp. -/
structure Job where
  id : Nat
  device : String
  status : Status
  createdAt : Nat
deriving DecidableEq, Repr

/-- The transition requests of section 4.3: scheduler start, adapter
success, adapter failure, user cancel. -/
inductive TransitionKind
  | start
  | complete
  | fail
  | cancel
deriving DecidableEq, Repr

/-- The error taxonomy of section 7, reduced to the kinds the claims
mention. -/
inductive EngineError
  | conflict
  | validation
  | notFound
  | invalidOrder
deriving DecidableEq, Repr

/-- Modelled from the spec: the transition guards of section 4.3. Any
attempt out of a terminal state yields the conflict error; a non-terminal
out-of-order attempt is refused as invalid order. -/
def tryTransition (s : Status) (t : TransitionKind) : Except EngineError Status :=
  match s, t with
  | Status.queued, TransitionKind.start => Except.ok Status.processing
  | Status.processing, TransitionKind.complete => Except.ok Status.completed
  | Status.processing, TransitionKind.fail => Except.ok Status.failed
  | Status.queued, TransitionKind.cancel => Except.ok Status.cancelled
  | Status.processing, TransitionKind.cancel => Except.ok Status.cancelled
  | s, _ =>
    if s.isTerminal then Except.error EngineError.conflict
    else Except.error EngineError.invalidOrder

/-- Modelled from the spec: `update_status` of the job store (section
4.1) — find the job, run the state-machine guard, and commit atomically.
The returned list is the store after the call: unchanged whenever the
guard refuses. -/
def updateStatusRun : List Job → Nat → TransitionKind → Except EngineError Status × List Job
  | [], _, _ => (Except.error EngineError.notFound, [])
  | j :: rest, id, t =>
    if j.id = id then
      match tryTransition j.status t with
      | Except.ok s' => (Except.ok s', { j with status := s' } :: rest)
      | Except.error e => (Except.error e, j :: rest)
    else
      ((updateStatusRun rest id t).1, j :: (updateStatusRun rest id t).2)

/-- Modelled from the spec: `get` of the job store (section 4.1) — the
first record carrying the identifier, if any. -/
def lookupJob : List Job → Nat → Option Job
  | [], _ => none
  | j :: rest, id => if j.id = id then some j else lookupJob rest id

/-- Modelled from the spec: `delete` of the job store (section 4.1) —
remove the job only when its status is terminal, otherwise leave the
store unchanged (precondition failed). -/
def deleteJob : List Job → Nat → List Job
  | [], _ => []
  | j :: rest, id =>
    if j.id = id then
      if j.status.isTerminal then rest else j :: rest
    else
      j :: deleteJob rest id

/-- Whether some job targeting the device is currently active. -/
def hasActive (d : String) (jobs : List Job) : Bool :=
  jobs.any (fun j => j.device == d && j.status.isActive)

/-- The number of active jobs targeting the device. -/
def activeCount (d : String) (jobs : List Job) : Nat :=
  jobs.countP (fun j => j.device == d && j.status.isActive)

/-- Modelled from the spec: the dispatch walk of the per-device scheduler
(section 4.4) — pop the head of the device's FIFO waiting list by flipping
the first queued job for the device to `Processing`, returning the new
store and the job that was started, if any. -/
def dispatchWalk (d : String) : List Job → List Job × Option Job
  | [] => ([], none)
  | j :: rest =>
    if j.device = d ∧ j.status = Status.queued then
      ({ j with status := Status.processing } :: rest, some j)
    else
      (j :: (dispatchWalk d rest).1, (dispatchWalk d rest).2)

/-- Modelled from the spec: the engine state — the job store, the log of
dispatched jobs as `(device, created_at)` pairs in dispatch order, the
submission clock and the id counter. -/
structure EngineState where
  jobs : List Job
  dispatchLog : List (String × Nat)
  clock : Nat
  nextId : Nat
deriving DecidableEq, Repr

/-- The engine's initial state: empty store, empty log. -/
def initState : EngineState :=
  { jobs := [], dispatchLog := [], clock := 0, nextId := 0 }

/-- The operations that mutate engine state: submission, a scheduler
dispatch attempt, user cancel, delete, and the adapter's terminal
reports. -/
inductive Op
  | submit (device : String)
  | dispatch (device : String)
  | cancel (id : Nat)
  | delete (id : Nat)
  | reportDone (id : Nat)
  | reportFailed (id : Nat)
deriving DecidableEq, Repr

/-- Modelled from the spec: one engine step (sections 4.1, 4.3, 4.4).
Submission appends a `Queued` record stamped with the current clock; a
dispatch attempt starts the device's first queued job only when the device
has no active job, logging the started job; cancel, delete and the adapter
reports go through the store operations above. -/
def step (op : Op) (s : EngineState) : EngineState :=
  match op with
  | Op.submit d =>
    { s with
      jobs := s.jobs ++ [{ id := s.nextId, device := d, status := Status.queued, createdAt := s.clock }]
      clock := s.clock + 1
      nextId := s.nextId + 1 }
  | Op.dispatch d =>
    if hasActive d s.jobs then s
    else
      match (dispatchWalk d s.jobs).2 with
      | none => s
      | some j =>
        { s with
          jobs := (dispatchWalk d s.jobs).1
          dispatchLog := s.dispatchLog ++ [(d, j.createdAt)] }
  | Op.cancel id => { s with jobs := (updateStatusRun s.jobs id TransitionKind.cancel).2 }
  | Op.delete id => { s with jobs := deleteJob s.jobs id }
  | Op.reportDone id => { s with jobs := (updateStatusRun s.jobs id TransitionKind.complete).2 }
  | Op.reportFailed id => { s with jobs := (updateStatusRun s.jobs id TransitionKind.fail).2 }

/-- Run a sequence of operations from the initial state. -/
def runOps (ops : List Op) : EngineState :=
  ops.foldl (fun s op => step op s) initState

/-- The `created_at` stamps of the jobs dispatched to a device, in
dispatch order. -/
def logTimes (d : String) (log : List (String × Nat)) : List Nat :=
  (log.filter (fun e => e.1 == d)).map (fun e => e.2)

/-! ## Scan submission validation, modelled from the design document -/

/-- Modelled from the spec: the scan options of section 3 — resolution in
DPI, output format, color mode, and the bounded brightness/contrast
offsets. -/
structure ScanOptions where
  resolution : Int
  format : String
  color_mode : String
  brightness : Int
  contrast : Int
deriving DecidableEq, Repr

/-- Modelled from the spec: the validity of scan options per section 3 —
resolution within 150–1200 DPI, a known output format and color mode, and
brightness/contrast within the bounded offset range. -/
def scanOptionsValid (o : ScanOptions) : Bool :=
  (150 ≤ o.resolution && o.resolution ≤ 1200)
    && (o.format ∈ ["pdf", "jpeg", "png", "tiff"])
    && (o.color_mode ∈ ["color", "grayscale", "lineart"])
    && (-100 ≤ o.brightness && o.brightness ≤ 100)
    && (-100 ≤ o.contrast && o.contrast ≤ 100)

/-- Modelled from the spec: scan submission (sections 4.2 and 7) — options
are validated before any job record exists; an invalid submission yields
the validation error and leaves the store exactly as it was. -/
def submitScanRun (store : List Job) (nextId clock : Nat) (device : String)
    (o : ScanOptions) : Except EngineError Job × List Job :=
  if scanOptionsValid o then
    let j : Job := { id := nextId, device := device, status := Status.queued, createdAt := clock }
    (Except.ok j, store ++ [j])
  else
    (Except.error EngineError.validation, store)


/-! ## Shared lemmas -/

/-- The clamped index never exceeds the string length. -/
theorem jsClamp_le_len (x : Int) (len : Nat) : jsClamp x len ≤ len := by
  unfold jsClamp
  split
  · omega
  · split
    · omega
    · omega

/-- Clamping the zero index gives zero. -/
theorem jsClamp_zero (len : Nat) : jsClamp 0 len = 0 := by
  unfold jsClamp
  split
  · rfl
  · split
    · omega
    · rfl

/-- The clamped index, read back as an integer, never exceeds a
nonnegative raw index. -/
theorem jsClamp_le_self (x : Int) (len : Nat) (hx : 0 ≤ x) :
    (jsClamp x len : Int) ≤ x := by
  unfold jsClamp
  split
  · omega
  · split
    · omega
    · omega

/-- The length of a substring taken from position zero is the clamped end
index. -/
theorem jsSubstring_zero_length (s : String) (e : Int) :
    (jsSubstring s 0 e).length = jsClamp e s.length := by
  have hb := jsClamp_le_len e s.length
  simp only [jsSubstring, jsClamp_zero, Nat.zero_min, Nat.zero_max, List.drop_zero,
    Nat.sub_zero]
  show (((s.toList).take (jsClamp e s.length)).length) = jsClamp e s.length
  rw [List.length_take]
  have hlen : s.toList.length = s.length := rfl
  omega

/-! ## C10 — `Utils.truncateFilename` -/

/-- C10 counterexample: for the dotless filename "abcd" and maxLength 2
the claim promises a result of length at most 2, but the function returns
"..." of length 3 — the clipped base name underflows to the empty string
and only the ellipsis remains. -/
theorem truncateFilename_small_max_counterexample :
    jsLastIndexOf "abcd" '.' = -1 ∧ ¬(("abcd".length : Int) ≤ 2) ∧
    ¬(((Utils.truncateFilename "abcd" 2).length : Int) ≤ 2) := by
  decide

/-- C10 (amended): a filename no longer than maxLength is returned
unchanged; a longer dotless filename is cut to at most maxLength provided
maxLength is at least 3; a longer filename with a dot whose extension
(from the last dot, inclusive) fits in maxLength minus 3 is cut to at most
maxLength and still ends with that extension. -/
theorem truncateFilename_bounded (filename : String) (maxLength : Int) :
    ((filename.length : Int) ≤ maxLength →
      Utils.truncateFilename filename maxLength = filename) ∧
    (maxLength < (filename.length : Int) → jsLastIndexOf filename '.' = -1 → 3 ≤ maxLength →
      ((Utils.truncateFilename filename maxLength).length : Int) ≤ maxLength) ∧
    (maxLength < (filename.length : Int) → jsLastIndexOf filename '.' ≠ -1 →
      ((jsSubstring filename (jsLastIndexOf filename '.') (filename.length : Int)).length : Int)
          ≤ maxLength - 3 →
      ((Utils.truncateFilename filename maxLength).length : Int) ≤ maxLength ∧
      ∃ pre, Utils.truncateFilename filename maxLength
          = pre ++ jsSubstring filename (jsLastIndexOf filename '.') (filename.length : Int)) := by
  refine ⟨?_, ?_, ?_⟩
  · intro h
    unfold Utils.truncateFilename
    rw [if_pos (Or.inr h)]
  · intro hlen hdot hmax
    have hne : ¬(filename = "" ∨ (filename.length : Int) ≤ maxLength) := by
      rintro (h | h)
      · subst h
        have h0 : ("" : String).length = 0 := rfl
        omega
      · omega
    simp only [Utils.truncateFilename]
    rw [if_neg hne, if_pos hdot]
    rw [String.length_append, jsSubstring_zero_length]
    have h1 := jsClamp_le_self (maxLength - 3) filename.length (by omega)
    have h2 : ("..." : String).length = 3 := rfl
    push_cast
    omega
  · intro hlen hdot hext
    have hne : ¬(filename = "" ∨ (filename.length : Int) ≤ maxLength) := by
      rintro (h | h)
      · subst h
        exact hdot rfl
      · omega
    constructor
    · simp only [Utils.truncateFilename]
      rw [if_neg hne, if_neg hdot]
      rw [String.length_append, String.length_append, jsSubstring_zero_length]
      have h1 := jsClamp_le_self
        (maxLength
          - ((jsSubstring filename (jsLastIndexOf filename '.') (filename.length : Int)).length : Int)
          - 3)
        (jsSubstring filename 0 (jsLastIndexOf filename '.')).length (by omega)
      have h2 : ("..." : String).length = 3 := rfl
      push_cast
      omega
    · refine ⟨jsSubstring (jsSubstring filename 0 (jsLastIndexOf filename '.')) 0
        (maxLength
          - ((jsSubstring filename (jsLastIndexOf filename '.') (filename.length : Int)).length : Int)
          - 3) ++ "...", ?_⟩
      simp only [Utils.truncateFilename]
      rw [if_neg hne, if_neg hdot]

/-! ## C10 witness -/

/-- C10 witness: the amended bound at the concrete filename
"abcdefgh.txt" with maxLength 10. -/
theorem truncateFilename_bounded_witness :
    ((Utils.truncateFilename "abcdefgh.txt" 10).length : Int) ≤ 10 ∧
    ∃ pre, Utils.truncateFilename "abcdefgh.txt" 10
        = pre ++ jsSubstring "abcdefgh.txt" (jsLastIndexOf "abcdefgh.txt" '.')
            (("abcdefgh.txt" : String).length : Int) :=
  (truncateFilename_bounded "abcdefgh.txt" 10).2.2 (by decide) (by decide) (by decide)

/-! ## C4 — job table action buttons -/

/-- C4: a print job row offers Delete exactly when the lower-cased status
is terminal and Cancel exactly when it is queued, processing or printing;
a scan job row offers Delete exactly when the lower-cased status is
terminal. -/
theorem job_table_actions_iff (status : String) (job : ScanJobRow) :
    (JobAction.del ∈ getJobActions status ↔
      jsToLowerCase status ∈ ["completed", "failed", "cancelled"]) ∧
    (JobAction.cancel ∈ getJobActions status ↔
      jsToLowerCase status ∈ ["queued", "processing", "printing"]) ∧
    (JobAction.del ∈ getScanJobActions job ↔
      jsToLowerCase job.status ∈ ["completed", "failed", "cancelled"]) := by
  refine ⟨?_, ?_, ?_⟩
  · by_cases h1 : jsToLowerCase status ∈ ["queued", "processing", "printing"] <;>
      by_cases h2 : jsToLowerCase status ∈ ["completed", "failed", "cancelled"] <;>
      simp [getJobActions, h1, h2]
  · by_cases h1 : jsToLowerCase status ∈ ["queued", "processing", "printing"] <;>
      by_cases h2 : jsToLowerCase status ∈ ["completed", "failed", "cancelled"] <;>
      simp [getJobActions, h1, h2]
  · by_cases h1 : jsToLowerCase job.status = "completed" ∧ job.file_available = true <;>
      by_cases h2 : job.format ∈ ["jpeg", "png", "tiff"] <;>
      by_cases h3 : jsToLowerCase job.status ∈ ["completed", "failed", "cancelled"] <;>
      simp [getScanJobActions, h1, h2, h3]

/-! ## C6 — queue snapshot rendering -/

/-- C6: every rendered queue entry carries the active styling exactly when
its lower-cased status is processing, printing or scanning; an active
entry shows the play marker and any other entry shows its position
index. -/
theorem queue_entry_active_iff (jobs : List QueueJob) (i : Nat) (job : QueueJob)
    (h : jobs[i]? = some job) :
    (displayJobQueue jobs)[i]? = some (renderQueueItem job i) ∧
    ((renderQueueItem job i).isProcessing = true ↔
      jsToLowerCase job.status ∈ ["processing", "printing", "scanning"]) ∧
    ((renderQueueItem job i).isProcessing = true →
      (renderQueueItem job i).positionLabel = "▶") ∧
    ((renderQueueItem job i).isProcessing = false →
      (renderQueueItem job i).positionLabel = "#" ++ toString i) := by
  refine ⟨?_, ?_, ?_, ?_⟩
  · simp [displayJobQueue, List.getElem?_map, List.getElem?_enum, h]
  · by_cases hm : jsToLowerCase job.status ∈ ["processing", "printing", "scanning"] <;>
      simp [renderQueueItem, hm]
  · by_cases hm : jsToLowerCase job.status ∈ ["processing", "printing", "scanning"] <;>
      simp [renderQueueItem, hm]
  · by_cases hm : jsToLowerCase job.status ∈ ["processing", "printing", "scanning"] <;>
      simp [renderQueueItem, hm]

/-- C6 witness: the rendering characterization at a concrete two-job
queue, at index 1. -/
theorem queue_entry_active_iff_witness :
    (displayJobQueue
        [{ isPrint := true, status := "Printing", filename := "a.pdf" },
         { isPrint := false, status := "Queued", filename := "b.pdf" }])[1]?
      = some (renderQueueItem { isPrint := false, status := "Queued", filename := "b.pdf" } 1) ∧
    ((renderQueueItem { isPrint := false, status := "Queued", filename := "b.pdf" } 1).isProcessing
        = true ↔
      jsToLowerCase "Queued" ∈ ["processing", "printing", "scanning"]) ∧
    ((renderQueueItem { isPrint := false, status := "Queued", filename := "b.pdf" } 1).isProcessing
        = true →
      (renderQueueItem { isPrint := false, status := "Queued", filename := "b.pdf" } 1).positionLabel
        = "▶") ∧
    ((renderQueueItem { isPrint := false, status := "Queued", filename := "b.pdf" } 1).isProcessing
        = false →
      (renderQueueItem { isPrint := false, status := "Queued", filename := "b.pdf" } 1).positionLabel
        = "#" ++ toString 1) :=
  queue_entry_active_iff
    [{ isPrint := true, status := "Printing", filename := "a.pdf" },
     { isPrint := false, status := "Queued", filename := "b.pdf" }]
    1 { isPrint := false, status := "Queued", filename := "b.pdf" } (by decide)

/-! ## C8 — print form file validation -/

/-- C8: the print form's file input is cleared with an error exactly when
the selected file exceeds 50 MB or carries a MIME type outside the allowed
list; otherwise the selection is left in place with no error. -/
theorem print_file_input_cleared_iff (f : SelectedFile) :
    (((handlePrintFileChange f).value = "" ∧
        ((handlePrintFileChange f).errorShown).isSome = true) ↔
      (printMaxFileSize < f.size ∨ f.type ∉ printAllowedTypes)) ∧
    (¬(printMaxFileSize < f.size ∨ f.type ∉ printAllowedTypes) →
      handlePrintFileChange f = { value := f.name, errorShown := none }) := by
  by_cases h1 : printMaxFileSize < f.size <;> by_cases h2 : f.type ∈ printAllowedTypes <;>
    simp [handlePrintFileChange, h1, h2, Nat.lt_iff_add_one_le]

/-- C8 witness: the characterization applied to a small plain-text file,
which is left in place. -/
theorem print_file_input_cleared_iff_witness :
    handlePrintFileChange { name := "n.txt", size := 7, type := "text/plain" }
      = { value := "n.txt", errorShown := none } :=
  (print_file_input_cleared_iff { name := "n.txt", size := 7, type := "text/plain" }).2
    (by decide)

/-! ## C9 — `API.request` resolution -/

/-- C9: with a parseable body, `API.request` resolves exactly when the
response is ok and the body is not a wrapper with success false; a success
wrapper resolves to its data field, a non-wrapper body resolves to the
body itself, and every other case throws carrying the server-supplied
message when a nonempty one is present. -/
theorem api_request_resolves_iff (r : HttpResponse) (b : ApiBody) (hb : r.body = some b) :
    ((∃ v, API.request r = Except.ok v) ↔ (r.ok = true ∧ b.success ≠ some false)) ∧
    (r.ok = true → b.success = some true →
      API.request r = Except.ok (ApiResult.payload b.data)) ∧
    (r.ok = true → b.success = none → API.request r = Except.ok (ApiResult.whole b)) ∧
    (r.ok = false → ∀ m, b.message = some m → m ≠ "" → API.request r = Except.error m) ∧
    (r.ok = true → b.success = some false → ∀ m, b.message = some m → m ≠ "" →
      API.request r = Except.error m) := by
  cases hok : r.ok
  · refine ⟨?_, by simp [hok], by simp [hok], ?_, by simp [hok]⟩
    · constructor
      · rintro ⟨v, hv⟩
        simp [API.request, hok, hb] at hv
      · rintro ⟨h, -⟩
        exact absurd h (by simp [hok])
    · intro _ m hm hne
      simp [API.request, hok, hb, hm, jsOrElse, hne]
  · rcases hs : b.success with - | s
    · refine ⟨?_, by simp [hs], ?_, by simp, by simp [hs]⟩
      · simp [API.request, hok, hb, hs]
      · intro _ _
        simp [API.request, hok, hb, hs]
    · cases s
      · refine ⟨?_, by simp [hs], by simp [hs], by simp, ?_⟩
        · constructor
          · rintro ⟨v, hv⟩
            simp [API.request, hok, hb, hs] at hv
          · rintro ⟨-, h⟩
            exact absurd rfl (hs ▸ h)
        · intro _ _ m hm hne
          simp [API.request, hok, hb, hs, hm, jsOrElse, hne]
      · refine ⟨?_, ?_, by simp [hs], by simp, by simp [hs]⟩
        · simp [API.request, hok, hb, hs]
        · intro _ _
          simp [API.request, hok, hb, hs]

/-- C9 witness: a 200 wrapper reply with success true resolves to its
data field. -/
theorem api_request_resolves_iff_witness :
    API.request { ok := true, status := 200, statusText := "OK",
                  body := some { success := some true, data := "payload", message := none } }
      = Except.ok (ApiResult.payload "payload") :=
  (api_request_resolves_iff
    { ok := true, status := 200, statusText := "OK",
      body := some { success := some true, data := "payload", message := none } }
    { success := some true, data := "payload", message := none } rfl).2.1 rfl rfl

/-! ## C5 — SSE message handling -/

/-- C5 counterexample: a recent-activity message carrying a nonempty
snapshot applies nothing of its payload to the user interface — the
handler, on the dashboard path, leaves the recent-activity application
empty, so only two of the three snapshot kinds are applied from the
stream. -/
theorem sse_recent_activity_unapplied :
    (handleSSEMessage "/"
        (SSEMessage.recentActivity
          [{ isPrint := true, status := "Completed", filename := "doc.pdf" }])).recentApplied
      = none :=
  rfl

/-- C5 (amended): the client dispatches on the message's type tag — a
queue snapshot is rendered when on the dashboard path, a status snapshot
is applied to the status area, while a recent-activity snapshot applies
nothing of its payload (the client instead refetches recent activity on
every message, whatever its tag). -/
theorem sse_dispatch_by_tag (path : String) (q : List QueueJob) (st : StatusSnapshot)
    (r : List QueueJob) (tag : String) :
    handleSSEMessage path (SSEMessage.queueUpdate q)
      = { refetchRecentActivity := true
          queueRendered := if path = "/" then some (displayJobQueue q) else none
          statusApplied := none
          recentApplied := none } ∧
    handleSSEMessage path (SSEMessage.statusUpdate st)
      = { refetchRecentActivity := true
          queueRendered := none
          statusApplied := some st
          recentApplied := none } ∧
    handleSSEMessage path (SSEMessage.recentActivity r)
      = { refetchRecentActivity := true
          queueRendered := none
          statusApplied := none
          recentApplied := none } ∧
    handleSSEMessage path (SSEMessage.unknown tag)
      = { refetchRecentActivity := true
          queueRendered := none
          statusApplied := none
          recentApplied := none } := by
  refine ⟨?_, rfl, rfl, rfl⟩
  by_cases h : path = "/" <;> simp [handleSSEMessage, h]

/-! ## C3 — terminal states are immutable -/

/-- Any transition attempted from a terminal status yields the conflict
error. -/
theorem tryTransition_terminal (s : Status) (t : TransitionKind)
    (h : s.isTerminal = true) :
    tryTransition s t = Except.error EngineError.conflict := by
  cases s <;> cases t <;> simp_all [tryTransition, Status.isTerminal]

/-- C3: a transition attempted on a job whose status is terminal returns
the conflict error and leaves the store — every field of every record —
exactly as it was. -/
theorem terminal_job_immutable (store : List Job) (id : Nat) (t : TransitionKind) (j : Job)
    (hfound : lookupJob store id = some j) (hterm : j.status.isTerminal = true) :
    updateStatusRun store id t = (Except.error EngineError.conflict, store) := by
  induction store with
  | nil => simp [lookupJob] at hfound
  | cons k rest ih =>
    by_cases hk : k.id = id
    · simp only [lookupJob, if_pos hk] at hfound
      have hkj : k = j := by injection hfound
      subst hkj
      simp [updateStatusRun, hk, tryTransition_terminal k.status t hterm]
    · simp only [lookupJob, if_neg hk] at hfound
      have := ih hfound
      simp [updateStatusRun, hk, this]

/-- C3 witness: cancelling an already-completed job yields the conflict
error and an unchanged store. -/
theorem terminal_job_immutable_witness :
    updateStatusRun [{ id := 0, device := "HP-1", status := Status.completed, createdAt := 0 }]
        0 TransitionKind.cancel
      = (Except.error EngineError.conflict,
         [{ id := 0, device := "HP-1", status := Status.completed, createdAt := 0 }]) :=
  terminal_job_immutable
    [{ id := 0, device := "HP-1", status := Status.completed, createdAt := 0 }] 0
    TransitionKind.cancel
    { id := 0, device := "HP-1", status := Status.completed, createdAt := 0 }
    (by decide) (by decide)

/-! ## C7 — invalid scan submissions are rejected unpersisted -/

/-- C7: an out-of-range resolution makes the scan options invalid, and any
invalid scan submission is rejected with the validation error while the
store — in which no record of the submission was ever created — is
returned exactly as it was. -/
theorem invalid_scan_rejected (store : List Job) (nextId clock : Nat) (device : String)
    (o : ScanOptions) :
    ((o.resolution < 150 ∨ 1200 < o.resolution) → scanOptionsValid o = false) ∧
    (scanOptionsValid o = false →
      submitScanRun store nextId clock device o
        = (Except.error EngineError.validation, store)) := by
  constructor
  · intro h
    simp only [scanOptionsValid, Bool.and_eq_false_iff]
    left
    left
    left
    left
    simp only [Bool.and_eq_false_iff, decide_eq_false_iff_not]
    omega
  · intro h
    simp [submitScanRun, h]

/-- C7 witness: a submission requesting 2000 DPI is rejected and the
(empty) store stays empty. -/
theorem invalid_scan_rejected_witness :
    submitScanRun [] 0 0 "EPSON-1"
        { resolution := 2000, format := "pdf", color_mode := "color",
          brightness := 0, contrast := 0 }
      = (Except.error EngineError.validation, []) :=
  (invalid_scan_rejected [] 0 0 "EPSON-1"
      { resolution := 2000, format := "pdf", color_mode := "color",
        brightness := 0, contrast := 0 }).2
    ((invalid_scan_rejected [] 0 0 "EPSON-1"
      { resolution := 2000, format := "pdf", color_mode := "color",
        brightness := 0, contrast := 0 }).1 (by decide))

/-! ## Engine lemmas — the store operations -/

/-- No transition guard ever produces the `Queued` status. -/
theorem tryTransition_ok_ne_queued (s : Status) (t : TransitionKind) (s' : Status)
    (h : tryTransition s t = Except.ok s') : s' ≠ Status.queued := by
  cases s <;> cases t <;> cases s' <;> simp_all [tryTransition, Status.isTerminal]

/-- The guards other than a scheduler start only ever produce inactive
statuses. -/
theorem tryTransition_ok_inactive (s : Status) (t : TransitionKind) (s' : Status)
    (ht : t ≠ TransitionKind.start) (h : tryTransition s t = Except.ok s') :
    s'.isActive = false := by
  cases s <;> cases t <;> cases s' <;>
    simp_all [tryTransition, Status.isTerminal, Status.isActive]

/-- A status update never changes the stored creation timestamps. -/
theorem updateStatusRun_map_createdAt (store : List Job) (id : Nat) (t : TransitionKind) :
    ((updateStatusRun store id t).2).map (fun j => j.createdAt)
      = store.map (fun j => j.createdAt) := by
  induction store with
  | nil => rfl
  | cons k rest ih =>
    by_cases hk : k.id = id
    · cases htr : tryTransition k.status t with
      | ok s' => simp [updateStatusRun, hk, htr]
      | error e => simp [updateStatusRun, hk, htr]
    · simp [updateStatusRun, hk, ih]

/-- Every job still queued after a status update was already in the store
before it. -/
theorem updateStatusRun_queued_mem (store : List Job) (id : Nat) (t : TransitionKind)
    (j : Job) (hj : j ∈ (updateStatusRun store id t).2) (hq : j.status = Status.queued) :
    j ∈ store := by
  induction store with
  | nil => simp [updateStatusRun] at hj
  | cons k rest ih =>
    by_cases hk : k.id = id
    · cases htr : tryTransition k.status t with
      | ok s' =>
        simp only [updateStatusRun, if_pos hk, htr, List.mem_cons] at hj
        rcases hj with hj | hj
        · subst hj
          simp only at hq
          exact absurd hq (tryTransition_ok_ne_queued k.status t s' htr)
        · exact List.mem_cons_of_mem k hj
      | error e =>
        simp only [updateStatusRun, if_pos hk, htr] at hj
        exact hj
    · simp only [updateStatusRun, if_neg hk, List.mem_cons] at hj
      rcases hj with hj | hj
      · exact hj ▸ List.mem_cons_self k rest
      · exact List.mem_cons_of_mem k (ih hj)

/-- A status update other than a scheduler start never increases the
number of active jobs on any device. -/
theorem updateStatusRun_activeCount_le (store : List Job) (id : Nat) (t : TransitionKind)
    (d : String) (ht : t ≠ TransitionKind.start) :
    activeCount d (updateStatusRun store id t).2 ≤ activeCount d store := by
  induction store with
  | nil => simp [updateStatusRun]
  | cons k rest ih =>
    by_cases hk : k.id = id
    · cases htr : tryTransition k.status t with
      | ok s' =>
        have hinact := tryTransition_ok_inactive k.status t s' ht htr
        simp only [updateStatusRun, if_pos hk, htr, activeCount, List.countP_cons]
        simp only [hinact, Bool.and_false, Bool.false_eq_true, if_false]
        omega
      | error e =>
        simp only [updateStatusRun, if_pos hk, htr]
        exact Nat.le_refl _
    · simp only [updateStatusRun, if_neg hk, activeCount, List.countP_cons]
      simp only [activeCount] at ih
      omega

/-- Deleting a job yields a sublist of the store. -/
theorem deleteJob_sublist (store : List Job) (id : Nat) :
    (deleteJob store id).Sublist store := by
  induction store with
  | nil => simp [deleteJob]
  | cons k rest ih =>
    by_cases hk : k.id = id
    · by_cases hterm : k.status.isTerminal = true
      · simp only [deleteJob, if_pos hk, if_pos hterm]
        exact List.sublist_cons_self k rest
      · simp only [deleteJob, if_pos hk, if_neg hterm]
        exact List.Sublist.refl _
    · simp only [deleteJob, if_neg hk]
      exact List.Sublist.cons₂ k ih

/-! ## Engine lemmas — the dispatch walk -/

/-- A dispatch walk that starts no job leaves the store unchanged. -/
theorem dispatchWalk_none (d : String) (l : List Job)
    (h : (dispatchWalk d l).2 = none) : (dispatchWalk d l).1 = l := by
  induction l with
  | nil => rfl
  | cons j rest ih =>
    by_cases hj : j.device = d ∧ j.status = Status.queued
    · simp [dispatchWalk, hj] at h
    · simp only [dispatchWalk, if_neg hj] at h ⊢
      rw [ih h]

/-- A dispatch walk that starts job `j` splits the store around the first
queued job for the device: nothing before it is a queued job for the
device, and only that job's status changes. -/
theorem dispatchWalk_some (d : String) (l : List Job) (j : Job)
    (h : (dispatchWalk d l).2 = some j) :
    ∃ pre post, l = pre ++ j :: post ∧
      (dispatchWalk d l).1 = pre ++ { j with status := Status.processing } :: post ∧
      j.device = d ∧ j.status = Status.queued ∧
      ∀ k ∈ pre, ¬(k.device = d ∧ k.status = Status.queued) := by
  induction l with
  | nil => simp [dispatchWalk] at h
  | cons a rest ih =>
    by_cases ha : a.device = d ∧ a.status = Status.queued
    · simp only [dispatchWalk, if_pos ha] at h ⊢
      have haj : a = j := by injection h
      subst haj
      exact ⟨[], rest, rfl, rfl, ha.1, ha.2, by simp⟩
    · simp only [dispatchWalk, if_neg ha] at h ⊢
      obtain ⟨pre, post, h1, h2, h3, h4, h5⟩ := ih h
      refine ⟨a :: pre, post, ?_, ?_, h3, h4, ?_⟩
      · rw [List.cons_append, h1]
      · rw [List.cons_append, h2]
      · intro k hk
        rcases List.mem_cons.mp hk with hk | hk
        · exact hk ▸ ha
        · exact h5 k hk

/-- Without any active job on the device, the active count is zero. -/
theorem hasActive_false_count (d : String) (jobs : List Job)
    (h : hasActive d jobs = false) : activeCount d jobs = 0 := by
  simp only [hasActive, List.any_eq_false] at h
  simp only [activeCount, List.countP_eq_zero]
  exact h

/-! ## Engine lemmas — timestamps and the invariant -/

/-- Jobs lists with the same creation timestamps have the same members of
each timestamp. -/
theorem mem_createdAt_of_map_eq (l l' : List Job)
    (h : l'.map (fun j => j.createdAt) = l.map (fun j => j.createdAt))
    (j' : Job) (hj' : j' ∈ l') : ∃ j ∈ l, j.createdAt = j'.createdAt := by
  have hmem : j'.createdAt ∈ l.map (fun j => j.createdAt) := by
    rw [← h]
    exact List.mem_map_of_mem _ hj'
  obtain ⟨j, hj, hje⟩ := List.mem_map.mp hmem
  exact ⟨j, hj, hje⟩

/-- Sortedness by creation timestamp transfers along an equality of the
timestamp lists. -/
theorem pairwise_createdAt_of_map_eq (l l' : List Job)
    (h : l'.map (fun j => j.createdAt) = l.map (fun j => j.createdAt))
    (hp : l.Pairwise (fun a b => a.createdAt ≤ b.createdAt)) :
    l'.Pairwise (fun a b => a.createdAt ≤ b.createdAt) := by
  have h1 : (l.map (fun j => j.createdAt)).Pairwise (fun a b => a ≤ b) :=
    List.pairwise_map.mpr hp
  rw [← h] at h1
  exact List.pairwise_map.mp h1

/-- Filtering the dispatch log distributes over appending. -/
theorem logTimes_append (d : String) (l1 l2 : List (String × Nat)) :
    logTimes d (l1 ++ l2) = logTimes d l1 ++ logTimes d l2 := by
  simp [logTimes, List.filter_append]

/-- The scheduler invariant: at most one active job per device, timestamps
below the clock, the store sorted by creation time, and each device's
dispatch log sorted, bounded by the clock and below every still-queued job
of that device. -/
structure EngineInv (s : EngineState) : Prop where
  count_le : ∀ d, activeCount d s.jobs ≤ 1
  created_lt : ∀ j ∈ s.jobs, j.createdAt < s.clock
  jobs_sorted : s.jobs.Pairwise (fun a b => a.createdAt ≤ b.createdAt)
  log_lt : ∀ d c, c ∈ logTimes d s.dispatchLog → c < s.clock
  log_le_queued : ∀ d c, c ∈ logTimes d s.dispatchLog →
    ∀ j ∈ s.jobs, j.device = d → j.status = Status.queued → c ≤ j.createdAt
  log_sorted : ∀ d, (logTimes d s.dispatchLog).Pairwise (fun a b => a ≤ b)

/-- The initial state satisfies the invariant. -/
theorem engineInv_init : EngineInv initState := by
  refine ⟨?_, ?_, ?_, ?_, ?_, ?_⟩ <;> simp [initState, activeCount, logTimes]

/-- Submission preserves the invariant: the new record is queued, stamped
with the current clock, and appended at the tail. -/
theorem engineInv_submit (s : EngineState) (d0 : String) (h : EngineInv s) :
    EngineInv (step (Op.submit d0) s) := by
  obtain ⟨hc, hcr, hsort, hlt, hlq, hls⟩ := h
  refine ⟨?_, ?_, ?_, ?_, ?_, ?_⟩
  · intro d
    have hle := hc d
    simp only [activeCount] at hle
    have hq : (Status.queued).isActive = false := rfl
    simp only [step, activeCount, List.countP_append, List.countP_cons, List.countP_nil, hq,
      Bool.and_false, Bool.false_eq_true, if_false]
    omega
  · intro j hj
    simp only [step, List.mem_append, List.mem_singleton] at hj
    simp only [step]
    rcases hj with hj | hj
    · exact Nat.lt_trans (hcr j hj) (Nat.lt_succ_self _)
    · rw [hj]
      exact Nat.lt_succ_self _
  · simp only [step]
    refine List.pairwise_append.mpr ⟨hsort, List.pairwise_singleton _ _, ?_⟩
    intro a ha b hb
    simp only [List.mem_singleton] at hb
    rw [hb]
    exact Nat.le_of_lt (hcr a ha)
  · intro d c hcmem
    simp only [step] at hcmem ⊢
    exact Nat.lt_trans (hlt d c hcmem) (Nat.lt_succ_self _)
  · intro d c hcmem j hj hdev hq
    simp only [step, List.mem_append, List.mem_singleton] at hj hcmem
    rcases hj with hj | hj
    · exact hlq d c hcmem j hj hdev hq
    · rw [hj]
      exact Nat.le_of_lt (hlt d c hcmem)
  · intro d
    simp only [step]
    exact hls d

/-- A non-start status update preserves the invariant: timestamps are
untouched, active counts do not grow, and no job becomes queued. -/
theorem engineInv_update (s : EngineState) (id : Nat) (t : TransitionKind)
    (ht : t ≠ TransitionKind.start) (h : EngineInv s) :
    EngineInv { s with jobs := (updateStatusRun s.jobs id t).2 } := by
  obtain ⟨hc, hcr, hsort, hlt, hlq, hls⟩ := h
  have hmap := updateStatusRun_map_createdAt s.jobs id t
  refine ⟨?_, ?_, ?_, hlt, ?_, hls⟩
  · intro d
    exact Nat.le_trans (updateStatusRun_activeCount_le s.jobs id t d ht) (hc d)
  · intro j hj
    obtain ⟨j0, hj0, hje⟩ := mem_createdAt_of_map_eq s.jobs _ hmap j hj
    exact hje ▸ hcr j0 hj0
  · exact pairwise_createdAt_of_map_eq s.jobs _ hmap hsort
  · intro d c hcmem j hj hdev hq
    exact hlq d c hcmem j (updateStatusRun_queued_mem s.jobs id t j hj hq) hdev hq

/-- Deletion preserves the invariant: the store only shrinks. -/
theorem engineInv_delete (s : EngineState) (id : Nat) (h : EngineInv s) :
    EngineInv { s with jobs := deleteJob s.jobs id } := by
  obtain ⟨hc, hcr, hsort, hlt, hlq, hls⟩ := h
  have hsub := deleteJob_sublist s.jobs id
  refine ⟨?_, ?_, ?_, hlt, ?_, hls⟩
  · intro d
    exact Nat.le_trans (hsub.countP_le _) (hc d)
  · intro j hj
    exact hcr j (hsub.subset hj)
  · exact hsort.sublist hsub
  · intro d c hcmem j hj hdev hq
    exact hlq d c hcmem j (hsub.subset hj) hdev hq

/-- A dispatch attempt preserves the invariant: it starts the first queued
job of the device only when the device has no active job, and logs that
job's creation stamp. -/
theorem engineInv_dispatch (s : EngineState) (d0 : String) (h : EngineInv s) :
    EngineInv (step (Op.dispatch d0) s) := by
  obtain ⟨hc, hcr, hsort, hlt, hlq, hls⟩ := h
  by_cases hact : hasActive d0 s.jobs = true
  · have hstep : step (Op.dispatch d0) s = s := by
      simp [step, hact]
    rw [hstep]
    exact ⟨hc, hcr, hsort, hlt, hlq, hls⟩
  · have hact' : hasActive d0 s.jobs = false := by
      simpa using hact
    rcases hw : (dispatchWalk d0 s.jobs).2 with - | j
    · have hstep : step (Op.dispatch d0) s = s := by
        simp [step, hact', hw]
      rw [hstep]
      exact ⟨hc, hcr, hsort, hlt, hlq, hls⟩
    · have hstep : step (Op.dispatch d0) s
          = { s with jobs := (dispatchWalk d0 s.jobs).1
                     dispatchLog := s.dispatchLog ++ [(d0, j.createdAt)] } := by
        simp [step, hact', hw]
      obtain ⟨pre, post, hl, hl', hdev, hqj, hpre⟩ := dispatchWalk_some d0 s.jobs j hw
      rw [hstep, hl']
      have hjmem : j ∈ s.jobs := by
        rw [hl]
        exact List.mem_append_right _ (List.mem_cons_self _ _)
      have hsort' : (pre ++ j :: post).Pairwise (fun a b => a.createdAt ≤ b.createdAt) :=
        hl ▸ hsort
      refine ⟨?_, ?_, ?_, ?_, ?_, ?_⟩
      · intro d
        by_cases hdd : d = d0
        · subst hdd
          have h0 : activeCount d s.jobs = 0 := hasActive_false_count d s.jobs hact'
          rw [hl] at h0
          have e1 : (j.device == d && j.status.isActive) = false := by
            rw [hqj]
            simp [Status.isActive, Status.isTerminal]
          have e2 : (({ j with status := Status.processing } : Job).device == d
              && ({ j with status := Status.processing } : Job).status.isActive) = true := by
            simp [hdev, Status.isActive, Status.isTerminal]
          simp only [activeCount, List.countP_append, List.countP_cons, e1, e2,
            Bool.false_eq_true, if_false, eq_self_iff_true, if_true] at h0 ⊢
          omega
        · have hne : (j.device == d) = false := by
            rw [hdev]
            exact beq_eq_false_iff_ne.mpr (fun hcon => hdd hcon.symm)
          have hle := hc d
          rw [hl] at hle
          simp only [activeCount, List.countP_append, List.countP_cons] at hle ⊢
          simp only [hne, Bool.false_and, Bool.false_eq_true, if_false] at hle ⊢
          omega
      · intro j' hj'
        simp only [List.mem_append, List.mem_cons] at hj'
        rcases hj' with hj' | hj' | hj'
        · exact hcr j' (by rw [hl]; exact List.mem_append_left _ hj')
        · rw [hj']
          exact hcr j hjmem
        · exact hcr j' (by
            rw [hl]
            exact List.mem_append_right _ (List.mem_cons_of_mem _ hj'))
      · refine pairwise_createdAt_of_map_eq (pre ++ j :: post) _ ?_ hsort'
        simp
      · intro d c hcmem
        rw [logTimes_append] at hcmem
        rcases List.mem_append.mp hcmem with hcmem | hcmem
        · exact hlt d c hcmem
        · by_cases hdd : d0 = d
          · simp only [logTimes, List.filter_cons, List.filter_nil, hdd, beq_self_eq_true,
              if_true, List.map_cons, List.map_nil, List.mem_singleton] at hcmem
            rw [hcmem]
            exact hcr j hjmem
          · simp [logTimes, hdd] at hcmem
      · intro d c hcmem j' hj' hdev' hq'
        have hj'mem : j' ∈ pre ∨ j' ∈ post := by
          simp only [List.mem_append, List.mem_cons] at hj'
          rcases hj' with hj' | hj' | hj'
          · exact Or.inl hj'
          · exfalso
            rw [hj'] at hq'
            simp at hq'
          · exact Or.inr hj'
        have hj'memS : j' ∈ s.jobs := by
          rw [hl]
          rcases hj'mem with hj' | hj'
          · exact List.mem_append_left _ hj'
          · exact List.mem_append_right _ (List.mem_cons_of_mem _ hj')
        rw [logTimes_append] at hcmem
        rcases List.mem_append.mp hcmem with hcmem | hcmem
        · exact hlq d c hcmem j' hj'memS hdev' hq'
        · by_cases hdd : d0 = d
          · simp only [logTimes, List.filter_cons, List.filter_nil, hdd, beq_self_eq_true,
              if_true, List.map_cons, List.map_nil, List.mem_singleton] at hcmem
            rcases hj'mem with hj'pre | hj'post
            · exact absurd ⟨hdd ▸ hdev', hq'⟩ (hpre j' hj'pre)
            · have hps : (j :: post).Pairwise (fun a b => a.createdAt ≤ b.createdAt) :=
                (List.pairwise_append.mp hsort').2.1
              rw [hcmem]
              exact (List.pairwise_cons.mp hps).1 j' hj'post
          · simp [logTimes, hdd] at hcmem
      · intro d
        rw [logTimes_append]
        by_cases hdd : d0 = d
        · have hsingle : logTimes d [(d0, j.createdAt)] = [j.createdAt] := by
            simp [logTimes, hdd]
          rw [hsingle]
          refine List.pairwise_append.mpr ⟨hls d, List.pairwise_singleton _ _, ?_⟩
          intro a ha b hb
          simp only [List.mem_singleton] at hb
          rw [hb]
          exact hlq d a ha j hjmem (hdd ▸ hdev) hqj
        · have hsingle : logTimes d [(d0, j.createdAt)] = [] := by
            simp [logTimes, hdd]
          rw [hsingle, List.append_nil]
          exact hls d

/-- Every engine operation preserves the scheduler invariant. -/
theorem engineInv_step (op : Op) (s : EngineState) (h : EngineInv s) :
    EngineInv (step op s) := by
  cases op with
  | submit d => exact engineInv_submit s d h
  | dispatch d => exact engineInv_dispatch s d h
  | cancel id => exact engineInv_update s id TransitionKind.cancel (by simp) h
  | delete id => exact engineInv_delete s id h
  | reportDone id => exact engineInv_update s id TransitionKind.complete (by simp) h
  | reportFailed id => exact engineInv_update s id TransitionKind.fail (by simp) h

/-- Folding operations from an invariant state stays within the
invariant. -/
theorem engineInv_foldl (ops : List Op) (s : EngineState) (h : EngineInv s) :
    EngineInv (ops.foldl (fun s op => step op s) s) := by
  induction ops generalizing s with
  | nil => exact h
  | cons op rest ih => exact ih (step op s) (engineInv_step op s h)

/-- Every reachable engine state satisfies the scheduler invariant. -/
theorem engineInv_run (ops : List Op) : EngineInv (runOps ops) :=
  engineInv_foldl ops initState engineInv_init

/-- One engine step preserves the at-most-one-active-job bound on every
device, with no other assumption on the state. -/
theorem step_activeCount_le (s : EngineState) (op : Op)
    (h : ∀ d, activeCount d s.jobs ≤ 1) :
    ∀ d, activeCount d (step op s).jobs ≤ 1 := by
  intro d
  cases op with
  | submit d0 =>
    have hle := h d
    simp only [activeCount] at hle
    have hq : (Status.queued).isActive = false := rfl
    simp only [step, activeCount, List.countP_append, List.countP_cons, List.countP_nil, hq,
      Bool.and_false, Bool.false_eq_true, if_false]
    omega
  | dispatch d0 =>
    by_cases hact : hasActive d0 s.jobs = true
    · have hstep : step (Op.dispatch d0) s = s := by
        simp [step, hact]
      rw [hstep]
      exact h d
    · have hact' : hasActive d0 s.jobs = false := by
        simpa using hact
      rcases hw : (dispatchWalk d0 s.jobs).2 with - | j
      · have hstep : step (Op.dispatch d0) s = s := by
          simp [step, hact', hw]
        rw [hstep]
        exact h d
      · have hstep : (step (Op.dispatch d0) s).jobs = (dispatchWalk d0 s.jobs).1 := by
          simp [step, hact', hw]
        obtain ⟨pre, post, hl, hl', hdev, hqj, hpre⟩ := dispatchWalk_some d0 s.jobs j hw
        rw [hstep, hl']
        by_cases hdd : d = d0
        · subst hdd
          have h0 : activeCount d s.jobs = 0 := hasActive_false_count d s.jobs hact'
          rw [hl] at h0
          have e1 : (j.device == d && j.status.isActive) = false := by
            rw [hqj]
            simp [Status.isActive, Status.isTerminal]
          have e2 : (({ j with status := Status.processing } : Job).device == d
              && ({ j with status := Status.processing } : Job).status.isActive) = true := by
            simp [hdev, Status.isActive, Status.isTerminal]
          simp only [activeCount, List.countP_append, List.countP_cons, e1, e2,
            Bool.false_eq_true, if_false, eq_self_iff_true, if_true] at h0 ⊢
          omega
        · have hne : (j.device == d) = false := by
            rw [hdev]
            exact beq_eq_false_iff_ne.mpr (fun hcon => hdd hcon.symm)
          have hle := h d
          rw [hl] at hle
          simp only [activeCount, List.countP_append, List.countP_cons] at hle ⊢
          simp only [hne, Bool.false_and, Bool.false_eq_true, if_false] at hle ⊢
          omega
  | cancel id =>
    exact Nat.le_trans
      (updateStatusRun_activeCount_le s.jobs id TransitionKind.cancel d (by simp)) (h d)
  | delete id =>
    exact Nat.le_trans ((deleteJob_sublist s.jobs id).countP_le _) (h d)
  | reportDone id =>
    exact Nat.le_trans
      (updateStatusRun_activeCount_le s.jobs id TransitionKind.complete d (by simp)) (h d)
  | reportFailed id =>
    exact Nat.le_trans
      (updateStatusRun_activeCount_le s.jobs id TransitionKind.fail d (by simp)) (h d)

/-! ## C1 — at most one active job per device -/

/-- C1: every engine operation preserves the bound of at most one job in
a non-terminal, non-queued status per device, and every reachable engine
state satisfies it. -/
theorem at_most_one_active_per_device :
    (∀ (s : EngineState) (op : Op), (∀ d, activeCount d s.jobs ≤ 1) →
      ∀ d, activeCount d (step op s).jobs ≤ 1) ∧
    (∀ (ops : List Op) (d : String), activeCount d (runOps ops).jobs ≤ 1) :=
  ⟨fun s op h => step_activeCount_le s op h,
   fun ops d => (engineInv_run ops).count_le d⟩

/-- C1 witness: the preservation half applied at the initial state and a
submission, and the reachability half on a concrete two-submission,
two-dispatch run. -/
theorem at_most_one_active_per_device_witness :
    activeCount "HP-1" (step (Op.submit "HP-1") initState).jobs ≤ 1 ∧
    activeCount "HP-1"
        (runOps [Op.submit "HP-1", Op.submit "HP-1", Op.dispatch "HP-1",
          Op.dispatch "HP-1"]).jobs ≤ 1 :=
  ⟨at_most_one_active_per_device.1 initState (Op.submit "HP-1")
      (fun d => by simp [initState, activeCount]) "HP-1",
   at_most_one_active_per_device.2
      [Op.submit "HP-1", Op.submit "HP-1", Op.dispatch "HP-1", Op.dispatch "HP-1"] "HP-1"⟩

/-! ## C2 — FIFO dispatch per device -/

/-- C2: on every reachable engine state, the creation stamps of the jobs
dispatched to any device, taken in dispatch order, are non-decreasing —
per-device dispatch follows submission order. -/
theorem dispatch_fifo_per_device (ops : List Op) (d : String) :
    (logTimes d (runOps ops).dispatchLog).Pairwise (fun a b => a ≤ b) :=
  (engineInv_run ops).log_sorted d
